import Mathlib

/-
  Verification development for the YouTube subtitle generator
  (src/subsCollector.py).  The Python program is shallowly embedded:
  pure helpers become Lean functions, the filesystem becomes an explicit
  association list of (path, content) threaded through each operation,
  and the external collaborators (yt-dlp metadata/download, the whisper
  model) are abstracted as an explicit per-item "world" describing how
  each external call behaves for that item.  Exceptions raised by the
  external calls are modelled by the corresponding world outcomes; the
  Python `except` handlers are translated branch by branch, including
  the `'final_audio_path' in locals()` probe (which statically resolves,
  at each raise point, to whether the variable was bound there).
-/

set_option maxHeartbeats 1000000

/-- Character classification supplied by the Python runtime.  The embedding
is parametric in it: `isalnum` models `str.isalnum` (Unicode aware) and
`isspace` models the whitespace classification used by `str.strip`. -/
structure CharSem where
  isalnum : Char → Bool
  isspace : Char → Bool

/-- Concrete character semantics for the ASCII fragment, on which Python's
`str.isalnum` agrees with `Char.isAlphanum` and `str.strip` strips exactly
the usual whitespace characters.  Used only for concrete evaluations. -/
def asciiCharSem : CharSem := ⟨Char.isAlphanum, Char.isWhitespace⟩

/-- Model of the `WhisperModel` enum (src/subsCollector.py lines 24-29). -/
inductive WhisperModel where
  | tiny
  | base
  | small
  | medium
  | large
deriving Repr, DecidableEq

/-- Model of `AppConfig` (src/subsCollector.py lines 31-38).  Paths are
strings; `max_filename_length` is a length, hence a `Nat`. -/
structure AppConfig where
  output_directory : String
  default_model : WhisperModel
  audio_format : String
  audio_quality : String
  max_filename_length : Nat
deriving Repr, DecidableEq

/-- The default configuration values of `AppConfig`. -/
def cfgDefault : AppConfig := ⟨("downloads"), WhisperModel.base, ("mp3"), ("192"), 100⟩

/-- Model of `YouTubeAudioExtractor.create_safe_filename`
(src/subsCollector.py lines 91-103): keep alphanumeric characters and
space/hyphen/underscore, replace each space with an underscore, then
truncate to `max_filename_length` characters. -/
def create_safe_filename (cs : CharSem) (maxLen : Nat) (video_title : String) : String :=
  let safe_chars := video_title.data.filter
    (fun char => cs.isalnum char || char == ' ' || char == '-' || char == '_')
  let safe_name := safe_chars.map (fun char => if char == ' ' then '_' else char)
  ⟨safe_name.take maxLen⟩

/-- Boolean test that `hay` starts with `needle` (helper for the Python
substring operator `in`). -/
def listStartsWith : List Char → List Char → Bool
  | _, [] => true
  | [], _ :: _ => false
  | a :: as, b :: bs => (a == b) && listStartsWith as bs

/-- Boolean test that `needle` occurs contiguously inside `hay`; this is
the semantics of Python's `needle in hay` on strings. -/
def listContainsSub : List Char → List Char → Bool
  | [], needle => needle.isEmpty
  | a :: as, needle => listStartsWith (a :: as) needle || listContainsSub as needle

/-- Model of `validate_youtube_url` (src/subsCollector.py lines 294-304):
`any(domain in url for domain in ["youtube.com", "youtu.be"])`. -/
def validate_youtube_url (url : String) : Bool :=
  [("youtube.com"), ("youtu.be")].any (fun domain => listContainsSub url.data domain.data)

/-- Model of `pathlib` `/` joining as used here: `output_directory / name`;
an empty component is dropped, so `dir / "" = dir`. -/
def pathJoin (dir name : String) : String :=
  if name = ("") then dir else dir ++ ("/") ++ name

/-- Drops the final-dot extension from a path name component, as
`pathlib.PurePath.with_suffix` does before appending the new suffix;
a leading dot (hidden-file name) is not an extension. -/
def dropLastExt (name : List Char) : List Char :=
  let rev := name.reverse
  if rev.contains '.' then
    match rev.dropWhile (fun c => c != '.') with
    | '.' :: stemRev => if stemRev.isEmpty then name else stemRev.reverse
    | _ => name
  else name

/-- The part of `with_suffix` that only depends on the original path:
directory part unchanged, last component stripped of its extension. -/
def withSuffixBase (l : List Char) : List Char :=
  let revl := l.reverse
  let nameRev := revl.takeWhile (fun c => c != '/')
  let dirRev := revl.dropWhile (fun c => c != '/')
  dirRev.reverse ++ dropLastExt nameRev.reverse

/-- Model of `pathlib.PurePath.with_suffix` for string paths. -/
def withSuffix (p : String) (suffix : String) : String :=
  ⟨withSuffixBase p.data ++ suffix.data⟩

/-- The filesystem: an association list of (path, contents), newest
entry first. -/
abbrev Fs := List (String × String)

/-- File-existence test (`Path.exists`). -/
def fsExists (fs : Fs) (p : String) : Bool :=
  fs.any (fun e => e.1 == p)

/-- Contents of the file at `p`, if it exists (newest write wins). -/
def fsLookup (fs : Fs) (p : String) : Option String :=
  (fs.find? (fun e => e.1 == p)).map (fun e => e.2)

/-- Writing a file (`Path.write_text` / the download producing a file). -/
def fsWrite (fs : Fs) (p c : String) : Fs :=
  (p, c) :: fs

/-- Deleting a file (`Path.unlink`). -/
def fsUnlink (fs : Fs) (p : String) : Fs :=
  fs.filter (fun e => e.1 != p)

/-- Model of the metadata dictionary returned by
`YouTubeAudioExtractor.get_video_info`: the fields the program reads,
namely `title` and the optional `duration`. -/
structure VideoInfo where
  title : String
  duration : Option Nat
deriving Repr, DecidableEq

/-- Behaviour of one `YouTubeAudioExtractor.download_audio` call:
it can return normally with the audio file present at the derived path
(`ok`), return normally without having produced the file there
(`okMissing`, the adapter-contract violation the code checks for),
raise after leaving a (partial) file at the derived path
(`failLeavingFile`), or raise leaving nothing (`failClean`). -/
inductive DownloadOutcome where
  | ok
  | okMissing
  | failLeavingFile
  | failClean
deriving Repr, DecidableEq

/-- Behaviour of the external collaborators for one processed item:
`info = none` models `get_video_info` raising, `transcription = none`
models `model.transcribe` raising. -/
structure ItemWorld where
  info : Option VideoInfo
  download : DownloadOutcome
  transcription : Option String
deriving Repr, DecidableEq

/-- Model of the dictionary built by
`SubtitleGenerator.generate_single_subtitle_detailed`
(src/subsCollector.py lines 215-223). -/
structure ItemResult where
  url : String
  title : String
  transcript : String
  filename : String
  text_file : String
  duration : Option Nat
  processed_at : String
deriving Repr, DecidableEq

/-- Model of `SubtitleGenerator.generate_subtitles`
(src/subsCollector.py lines 141-178).  Returns the transcript text or
`none` on failure, together with the final filesystem.  The `except`
handler (lines 174-178) unlinks `final_audio_path` only when that
variable was bound and the file exists; at raise points before the
download returned, the variable is unbound and nothing is deleted. -/
def generate_subtitles (cfg : AppConfig) (cs : CharSem) (w : ItemWorld)
    (video_url : String) (fs : Fs) : Option String × Fs :=
  match w.info with
  | none => (none, fs)  -- get_video_info raised; no cleanup possible
  | some video_info =>
    let safe_filename := create_safe_filename cs cfg.max_filename_length video_info.title
    let audio_path := pathJoin cfg.output_directory safe_filename
    let text_path := withSuffix audio_path (".txt")
    let final_audio_path := withSuffix audio_path (("." ) ++ cfg.audio_format)
    let afterDownload : Fs → Option String × Fs := fun fs1 =>
      if fsExists fs1 final_audio_path = false then
        (none, fs1)  -- FileNotFoundError; file absent, handler unlinks nothing
      else
        match w.transcription with
        | none =>
          -- transcribe raised; handler finds the bound path existing and unlinks it
          (none, if fsExists fs1 final_audio_path then fsUnlink fs1 final_audio_path else fs1)
        | some text =>
          let fs2 := fsUnlink fs1 final_audio_path
          let fs3 := fsWrite fs2 text_path text
          (some text, fs3)
    match w.download with
    | DownloadOutcome.failClean => (none, fs)  -- raise, nothing produced, no cleanup
    | DownloadOutcome.failLeavingFile =>
      -- the tool produced a (partial) file then raised; `final_audio_path`
      -- was never bound, so the handler does not delete it
      (none, fsWrite fs final_audio_path (""))
    | DownloadOutcome.ok => afterDownload (fsWrite fs final_audio_path (""))
    | DownloadOutcome.okMissing => afterDownload fs

/-- Model of `SubtitleGenerator.generate_single_subtitle_detailed`
(src/subsCollector.py lines 180-229): URL validation first, then the
same pipeline as `generate_subtitles`, returning the detailed result
dictionary on success.  `now` stands for `datetime.now().isoformat()`. -/
def generate_single_subtitle_detailed (cfg : AppConfig) (cs : CharSem) (w : ItemWorld)
    (video_url : String) (now : String) (fs : Fs) : Option ItemResult × Fs :=
  if validate_youtube_url video_url = false then
    (none, fs)  -- lines 191-193: early return None
  else
    match w.info with
    | none => (none, fs)
    | some video_info =>
      let safe_filename := create_safe_filename cs cfg.max_filename_length video_info.title
      let audio_path := pathJoin cfg.output_directory safe_filename
      let text_path := withSuffix audio_path (".txt")
      let final_audio_path := withSuffix audio_path (("." ) ++ cfg.audio_format)
      let afterDownload : Fs → Option ItemResult × Fs := fun fs1 =>
        if fsExists fs1 final_audio_path = false then
          (none, fs1)
        else
          match w.transcription with
          | none =>
            (none, if fsExists fs1 final_audio_path then fsUnlink fs1 final_audio_path else fs1)
          | some text =>
            let fs2 := fsUnlink fs1 final_audio_path
            let fs3 := fsWrite fs2 text_path text
            (some ⟨video_url, video_info.title, text, safe_filename, text_path,
                   video_info.duration, now⟩, fs3)
      match w.download with
      | DownloadOutcome.failClean => (none, fs)
      | DownloadOutcome.failLeavingFile => (none, fsWrite fs final_audio_path (""))
      | DownloadOutcome.ok => afterDownload (fsWrite fs final_audio_path (""))
      | DownloadOutcome.okMissing => afterDownload fs

/-- The audio-artifact path an item derives from its resolved title:
`output_directory / safe_filename` with the configured audio extension. -/
def audioPathOf (cfg : AppConfig) (cs : CharSem) (info : VideoInfo) : String :=
  withSuffix (pathJoin cfg.output_directory
    (create_safe_filename cs cfg.max_filename_length info.title)) (("." ) ++ cfg.audio_format)

/-- The transcript path an item derives from its resolved title. -/
def textPathOf (cfg : AppConfig) (cs : CharSem) (info : VideoInfo) : String :=
  withSuffix (pathJoin cfg.output_directory
    (create_safe_filename cs cfg.max_filename_length info.title)) (".txt")

/-- The derived audio path of an item, when its metadata resolves. -/
def derivedAudioPath (cfg : AppConfig) (cs : CharSem) (w : ItemWorld) : Option String :=
  w.info.map (fun info => audioPathOf cfg cs info)

/-- Model of Python's `str.strip()`: drop leading and trailing
whitespace characters. -/
def pyStrip (cs : CharSem) (s : String) : String :=
  ⟨((s.data.dropWhile cs.isspace).reverse.dropWhile cs.isspace).reverse⟩

/-- The log lines the batch loop emits (src/subsCollector.py
lines 244, 248, 250). -/
inductive LogEvent where
  | progress (index total : Nat) (url : String)
  | completed (title : String)
  | failed (url : String)
deriving Repr, DecidableEq

/-- Whether a log event is a per-item progress line. -/
def LogEvent.isProgress : LogEvent → Bool
  | LogEvent.progress _ _ _ => true
  | _ => false

/-- The loop body of `SubtitleGenerator.generate_batch_subtitles`
(src/subsCollector.py lines 241-252): `i` is the 1-based index,
`total` is `len(video_urls)`; each url is stripped before being passed
to `generate_single_subtitle_detailed`; a truthy (`some`) result is
appended, a `none` result is logged with the original url and the loop
continues. -/
def batchAux (cfg : AppConfig) (cs : CharSem) (env : String → ItemWorld) (now : String)
    (total : Nat) : Nat → List String → Fs → List ItemResult × Fs × List LogEvent
  | _, [], fs => ([], fs, [])
  | i, url :: rest, fs =>
    let stripped := pyStrip cs url
    let step := generate_single_subtitle_detailed cfg cs (env stripped) stripped now fs
    match step.1 with
    | some result =>
      let tail := batchAux cfg cs env now total (i + 1) rest step.2
      (result :: tail.1, tail.2.1,
        LogEvent.progress i total url :: LogEvent.completed result.title :: tail.2.2)
    | none =>
      let tail := batchAux cfg cs env now total (i + 1) rest step.2
      (tail.1, tail.2.1,
        LogEvent.progress i total url :: LogEvent.failed url :: tail.2.2)

/-- Model of `SubtitleGenerator.generate_batch_subtitles`
(src/subsCollector.py lines 231-252).  `env` gives the external-world
behaviour for each (stripped) url; the function returns the report, the
final filesystem and the emitted log lines. -/
def generate_batch_subtitles (cfg : AppConfig) (cs : CharSem) (env : String → ItemWorld)
    (now : String) (video_urls : List String) (fs : Fs) :
    List ItemResult × Fs × List LogEvent :=
  batchAux cfg cs env now video_urls.length 1 video_urls fs

/-- The sequence of per-item outcomes of a batch run, in input order,
with the filesystem threaded exactly as the batch loop threads it. -/
def batchOutcomes (cfg : AppConfig) (cs : CharSem) (env : String → ItemWorld) (now : String) :
    List String → Fs → List (Option ItemResult)
  | [], _ => []
  | url :: rest, fs =>
    let stripped := pyStrip cs url
    let step := generate_single_subtitle_detailed cfg cs (env stripped) stripped now fs
    step.1 :: batchOutcomes cfg cs env now rest step.2

/-- A character the `csv` module's QUOTE_MINIMAL rule treats as special:
the delimiter, the quote character, or a line-terminator character. -/
def csvSpecialChar (c : Char) : Bool :=
  c == ',' || c == '"' || c == '\r' || c == '\n'

/-- Whether a field must be quoted under QUOTE_MINIMAL. -/
def csvNeedsQuoting (s : String) : Bool :=
  s.data.any csvSpecialChar

/-- Escaping inside a quoted field: each quote character is doubled. -/
def csvEscapeData (l : List Char) : List Char :=
  l.flatMap (fun c => if c == '"' then ['"', '"'] else [c])

/-- One rendered CSV field, quoted exactly when needed. -/
def csvRenderField (s : String) : String :=
  if csvNeedsQuoting s then ("\"") ++ (⟨csvEscapeData s.data⟩ : String) ++ ("\"") else s

/-- The fields of a row joined by the delimiter. -/
def csvRenderRowBody : List String → String
  | [] => ("")
  | [f] => csvRenderField f
  | f :: g :: rest => csvRenderField f ++ (",") ++ csvRenderRowBody (g :: rest)

/-- One rendered CSV record, terminated by the writer's default
line terminator CRLF. -/
def csvRenderRow (fields : List String) : String :=
  csvRenderRowBody fields ++ ("\r\n")

/-- Consecutive rendered CSV records. -/
def csvRenderRows : List (List String) → String
  | [] => ("")
  | row :: rest => csvRenderRow row ++ csvRenderRows rest

/-- The fixed CSV column order (src/subsCollector.py line 260). -/
def csvHeaderFields : List String :=
  [("title"), ("url"), ("duration"), ("transcript"), ("filename"), ("processed_at")]

/-- How the csv writer stringifies the `duration` dictionary value:
the number when metadata carried one, the `'Unknown'` default otherwise
(src/subsCollector.py line 221). -/
def durationToString : Option Nat → String
  | some n => toString n
  | none => ("Unknown")

/-- The row written for one result (src/subsCollector.py lines 264-271). -/
def csvRowOf (r : ItemResult) : List String :=
  [r.title, r.url, durationToString r.duration, r.transcript, r.filename, r.processed_at]

/-- The file contents produced by `SubtitleGenerator.save_results_csv`
(src/subsCollector.py lines 254-274): opening the file always creates
it; the header and rows are written only when `results` is non-empty,
so an empty report yields an empty file. -/
def save_results_csv_content (results : List ItemResult) : String :=
  if results.isEmpty then ("")
  else csvRenderRows (csvHeaderFields :: results.map csvRowOf)

/-- Model of `SubtitleGenerator.save_results_csv`: returns the path it
reports and the filesystem with the file written. -/
def save_results_csv (cfg : AppConfig) (results : List ItemResult)
    (filename : String) (fs : Fs) : String × Fs :=
  let csv_path := pathJoin cfg.output_directory filename
  (csv_path, fsWrite fs csv_path (save_results_csv_content results))

/-- JSON string escaping as `json.dump` with `ensure_ascii=False`
performs it: quote, backslash and control characters escaped, all other
characters (Unicode included) kept verbatim. -/
def jsonEscapeChar (c : Char) : List Char :=
  if c == '"' then ['\\', '"']
  else if c == '\\' then ['\\', '\\']
  else if c == '\n' then ['\\', 'n']
  else if c == '\r' then ['\\', 'r']
  else if c == '\t' then ['\\', 't']
  else if c == '\x08' then ['\\', 'b']
  else if c == '\x0c' then ['\\', 'f']
  else if c.toNat < 32 then
    let hexDigit := fun (n : Nat) => if n < 10 then Char.ofNat (48 + n) else Char.ofNat (87 + n)
    ['\\', 'u', '0', '0', hexDigit (c.toNat / 16), hexDigit (c.toNat % 16)]
  else [c]

/-- A rendered JSON string literal. -/
def jsonRenderString (s : String) : String :=
  ("\"") ++ (⟨s.data.flatMap jsonEscapeChar⟩ : String) ++ ("\"")

/-- The JSON value written for the `duration` field: a number when
metadata carried one, the string `'Unknown'` otherwise. -/
def jsonRenderDuration : Option Nat → String
  | some n => toString n
  | none => jsonRenderString ("Unknown")

/-- One result dictionary rendered as `json.dump` renders it inside the
list with `indent=2`: keys in insertion order
(src/subsCollector.py lines 215-223). -/
def jsonRenderResultObj (r : ItemResult) : String :=
  ("  \x7b\n")
  ++ ("    \"url\": ") ++ jsonRenderString r.url ++ (",\n")
  ++ ("    \"title\": ") ++ jsonRenderString r.title ++ (",\n")
  ++ ("    \"transcript\": ") ++ jsonRenderString r.transcript ++ (",\n")
  ++ ("    \"filename\": ") ++ jsonRenderString r.filename ++ (",\n")
  ++ ("    \"text_file\": ") ++ jsonRenderString r.text_file ++ (",\n")
  ++ ("    \"duration\": ") ++ jsonRenderDuration r.duration ++ (",\n")
  ++ ("    \"processed_at\": ") ++ jsonRenderString r.processed_at ++ ("\n")
  ++ ("  \x7d")

/-- Comma-and-newline separated rendered objects. -/
def jsonRenderObjList : List ItemResult → String
  | [] => ("")
  | [r] => jsonRenderResultObj r
  | r :: s :: rest => jsonRenderResultObj r ++ (",\n") ++ jsonRenderObjList (s :: rest)

/-- The file contents produced by `SubtitleGenerator.save_results_json`
(src/subsCollector.py lines 276-284): `json.dump(results, indent=2,
ensure_ascii=False)`; the empty list renders as the compact `[]`. -/
def save_results_json_content (results : List ItemResult) : String :=
  if results.isEmpty then ("[]")
  else ("[\n") ++ jsonRenderObjList results ++ ("\n]")

/-- Model of `SubtitleGenerator.save_results_json`: returns the path it
reports and the filesystem with the file written. -/
def save_results_json (cfg : AppConfig) (results : List ItemResult)
    (filename : String) (fs : Fs) : String × Fs :=
  let json_path := pathJoin cfg.output_directory filename
  (json_path, fsWrite fs json_path (save_results_json_content results))

/-- CSV parsing, unquoted field: read until a special character. -/
def parseRaw : List Char → String × List Char
  | [] => (("" : String), [])
  | c :: rest =>
    if csvSpecialChar c then (("" : String), c :: rest)
    else
      let p := parseRaw rest
      (⟨c :: p.1.data⟩, p.2)

/-- CSV parsing, quoted field body: a doubled quote is an escaped quote,
a single quote closes the field. -/
def parseQuoted : List Char → List Char → String × List Char
  | acc, [] => (⟨acc.reverse⟩, [])
  | acc, c :: rest =>
    if c == '"' then
      match rest with
      | r2 :: rest2 =>
        if r2 == '"' then parseQuoted ('"' :: acc) rest2 else (⟨acc.reverse⟩, rest)
      | [] => (⟨acc.reverse⟩, rest)
    else parseQuoted (c :: acc) rest
termination_by acc l => l.length
decreasing_by
  all_goals simp_wf
  all_goals omega

/-- CSV parsing, one field: quoted when it starts with a quote. -/
def parseField : List Char → String × List Char
  | [] => parseRaw []
  | c :: rest => if c == '"' then parseQuoted [] rest else parseRaw (c :: rest)

/-- CSV parsing, one record: fields separated by commas, terminated by
CRLF or end of input; `fuel` bounds the number of fields. -/
def parseRecordAux : Nat → List Char → List String × List Char
  | 0, l => ([], l)
  | fuel + 1, l =>
    let p := parseField l
    match p.2 with
    | [] => ([p.1], [])
    | c :: r2 =>
      if c == ',' then
        let q := parseRecordAux fuel r2
        (p.1 :: q.1, q.2)
      else if c == '\r' then
        match r2 with
        | n :: r3 => if n == '\n' then ([p.1], r3) else ([p.1], c :: r2)
        | [] => ([p.1], c :: r2)
      else ([p.1], c :: r2)

/-- CSV parsing, one record, with enough fuel for its input. -/
def parseRecord (l : List Char) : List String × List Char :=
  parseRecordAux (l.length + 1) l

/-- CSV parsing, all records; `fuel` bounds the number of records. -/
def parseCsvAux : Nat → List Char → List (List String)
  | 0, _ => []
  | fuel + 1, l =>
    if l.isEmpty then []
    else
      let p := parseRecord l
      p.1 :: parseCsvAux fuel p.2

/-- Parse a CSV document into its records. -/
def parseCsvRecords (s : String) : List (List String) :=
  parseCsvAux (s.data.length + 1) s.data

/-- JSON values, for checking that the structured writer's output is a
parseable document. -/
inductive Json where
  | str (s : String)
  | num (n : Nat)
  | bool (b : Bool)
  | null
  | arr (elements : List Json)
  | obj (fields : List (String × Json))

/-- JSON whitespace skipping. -/
def jsonSkipWs (l : List Char) : List Char :=
  l.dropWhile (fun c => c == ' ' || c == '\n' || c == '\r' || c == '\t')

/-- JSON string-literal body parsing (escapes as emitted by the writer;
`\u` escapes are not consumed). -/
def parseJsonStringAux : List Char → List Char → Option (String × List Char)
  | _, [] => none
  | acc, c :: rest =>
    if c == '"' then some (⟨acc.reverse⟩, rest)
    else if c == '\\' then
      match rest with
      | [] => none
      | e :: rest2 =>
        if e == '"' then parseJsonStringAux ('"' :: acc) rest2
        else if e == '\\' then parseJsonStringAux ('\\' :: acc) rest2
        else if e == 'n' then parseJsonStringAux ('\n' :: acc) rest2
        else if e == 'r' then parseJsonStringAux ('\r' :: acc) rest2
        else if e == 't' then parseJsonStringAux ('\t' :: acc) rest2
        else if e == 'b' then parseJsonStringAux ('\x08' :: acc) rest2
        else if e == 'f' then parseJsonStringAux ('\x0c' :: acc) rest2
        else if e == '/' then parseJsonStringAux ('/' :: acc) rest2
        else none
    else parseJsonStringAux (c :: acc) rest
termination_by acc l => l.length
decreasing_by
  all_goals simp_wf
  all_goals omega

/-- Natural-number literal parsing. -/
def parseJsonNat (l : List Char) : Option (Nat × List Char) :=
  let digits := l.takeWhile (fun c => c.isDigit)
  if digits.isEmpty then none
  else some (digits.foldl (fun n c => n * 10 + (c.toNat - 48)) 0, l.dropWhile (fun c => c.isDigit))

mutual

/-- JSON value parsing, fuelled. -/
def parseJsonValue : Nat → List Char → Option (Json × List Char)
  | 0, _ => none
  | fuel + 1, l =>
    match jsonSkipWs l with
    | [] => none
    | c :: rest =>
      if c == '"' then
        (parseJsonStringAux [] rest).map (fun p => (Json.str p.1, p.2))
      else if c == '[' then
        match jsonSkipWs rest with
        | ']' :: rest2 => some (Json.arr [], rest2)
        | rest2 =>
          match parseJsonItems fuel rest2 with
          | some (vs, r) => some (Json.arr vs, r)
          | none => none
      else if c == '\x7b' then
        match jsonSkipWs rest with
        | '\x7d' :: rest2 => some (Json.obj [], rest2)
        | rest2 =>
          match parseJsonMembers fuel rest2 with
          | some (ms, r) => some (Json.obj ms, r)
          | none => none
      else if listStartsWith (c :: rest) (("true").data) then
        some (Json.bool true, (c :: rest).drop 4)
      else if listStartsWith (c :: rest) (("false").data) then
        some (Json.bool false, (c :: rest).drop 5)
      else if listStartsWith (c :: rest) (("null").data) then
        some (Json.null, (c :: rest).drop 4)
      else
        (parseJsonNat (c :: rest)).map (fun p => (Json.num p.1, p.2))

/-- JSON array items: value, then comma-continuation or closing bracket. -/
def parseJsonItems : Nat → List Char → Option (List Json × List Char)
  | 0, _ => none
  | fuel + 1, l =>
    match parseJsonValue fuel l with
    | none => none
    | some (v, r) =>
      match jsonSkipWs r with
      | ',' :: r2 =>
        match parseJsonItems fuel r2 with
        | some (vs, r3) => some (v :: vs, r3)
        | none => none
      | ']' :: r2 => some ([v], r2)
      | _ => none

/-- JSON object members: string key, colon, value, then comma or brace. -/
def parseJsonMembers : Nat → List Char → Option (List (String × Json) × List Char)
  | 0, _ => none
  | fuel + 1, l =>
    match jsonSkipWs l with
    | '"' :: rest =>
      match parseJsonStringAux [] rest with
      | none => none
      | some (key, r) =>
        match jsonSkipWs r with
        | ':' :: r2 =>
          match parseJsonValue fuel r2 with
          | none => none
          | some (v, r3) =>
            match jsonSkipWs r3 with
            | ',' :: r4 =>
              match parseJsonMembers fuel r4 with
              | some (ms, r5) => some ((key, v) :: ms, r5)
              | none => none
            | '\x7d' :: r4 => some ([(key, v)], r4)
            | _ => none
        | _ => none
    | _ => none

end

/-- Boundary shapes at which a rendered CSV field may legally end:
end of input, a following delimiter, or a following line terminator. -/
def CsvBoundary (rest : List Char) : Prop :=
  rest = [] ∨ ∃ r, rest = ',' :: r ∨ rest = '\r' :: r

/-- Concrete world used for the C1 counterexample: metadata resolves,
the download raises after leaving a partial file, transcription would
succeed. -/
def wC1 : ItemWorld := ⟨some ⟨("Talk"), some 10⟩, DownloadOutcome.failLeavingFile, some ("x")⟩

/-- Concrete URL used for the C1 counterexample. -/
def urlC1 : String := ("https://www.youtube.com/watch?v=abc")

/-- Concrete world used for the C1 witness: download succeeds, the
transcription step raises, so the failure-path cleanup runs. -/
def wW1 : ItemWorld := ⟨some ⟨("Clip"), some 3⟩, DownloadOutcome.ok, none⟩

/-- Concrete world used for the C2 counterexample and witness: the title
sanitises to the empty string, everything else succeeds. -/
def wC2 : ItemWorld := ⟨some ⟨("!!!"), none⟩, DownloadOutcome.ok, some ("hello")⟩

/-- Concrete world used for the C5 counterexample: download raises after
leaving a partial file. -/
def wC5 : ItemWorld := ⟨some ⟨("Demo"), none⟩, DownloadOutcome.failLeavingFile, some ("y")⟩

/-- Concrete URL used for the C5 counterexample. -/
def urlC5 : String := ("https://youtu.be/demo1")

/-- Concrete world used for the C5 witness: download succeeds, the
transcription step raises. -/
def wW5 : ItemWorld := ⟨some ⟨("Clip2"), none⟩, DownloadOutcome.ok, none⟩

/-- Concrete result used for the C9 witness; the transcript contains the
delimiter, the quote character and an embedded CRLF. -/
def rC9 : ItemResult :=
  ⟨("https://youtu.be/x"), ("My, \"Talk\""), ("line1\r\nline2, end"), ("My_Talk"),
   ("downloads/My_Talk.txt"), some 42, ("2025-01-01T00:00:00")⟩

/-- Concrete world used for the C10 witness: metadata resolution fails,
so the item fails. -/
def wC10 : ItemWorld := ⟨none, DownloadOutcome.failClean, none⟩

/-- Concrete padded URL used for the C10 witness. -/
def urlC10 : String := ("  https://youtu.be/x  ")

/- ------------------------------------------------------------------ -/
/- Helper lemmas.                                                      -/
/- ------------------------------------------------------------------ -/

theorem stringDataInj {a b : String} (h : a.data = b.data) : a = b := String.ext h

theorem fsExists_write (fs : Fs) (p c q : String) :
    fsExists (fsWrite fs p c) q = ((p == q) || fsExists fs q) := by
  simp [fsExists, fsWrite]

theorem fsExists_unlink_self (fs : Fs) (p : String) :
    fsExists (fsUnlink fs p) p = false := by
  simp only [fsUnlink, fsExists, List.any_filter]
  have hfun : (fun a : String × String => a.1 != p && (a.1 == p))
      = (fun _ : String × String => false) := by
    funext a
    by_cases ha : a.1 = p
    · have h1 : (a.1 != p) = false := by simp [ha]
      rw [h1, Bool.false_and]
    · have h1 : (a.1 == p) = false := beq_eq_false_iff_ne.mpr ha
      rw [h1, Bool.and_false]
  rw [hfun]
  simp

theorem fsExists_unlink_ne (fs : Fs) (p q : String) (h : q ≠ p) :
    fsExists (fsUnlink fs p) q = fsExists fs q := by
  simp only [fsUnlink, fsExists, List.any_filter]
  have hfun : (fun a : String × String => a.1 != p && (a.1 == q))
      = (fun a : String × String => a.1 == q) := by
    funext a
    by_cases ha : a.1 = q
    · have h1 : (a.1 != p) = true := by rw [ha]; simpa using h
      rw [h1, Bool.true_and]
    · have h1 : (a.1 == q) = false := beq_eq_false_iff_ne.mpr ha
      rw [h1, Bool.and_false]
  rw [hfun]

theorem fsLookup_write_ne (fs : Fs) (p c q : String) (h : q ≠ p) :
    fsLookup (fsWrite fs p c) q = fsLookup fs q := by
  have : (p == q) = false := beq_eq_false_iff_ne.mpr (fun hc => h hc.symm)
  simp [fsLookup, fsWrite, List.find?_cons, this]

theorem fsLookup_unlink_ne (fs : Fs) (p q : String) (h : q ≠ p) :
    fsLookup (fsUnlink fs p) q = fsLookup fs q := by
  simp only [fsUnlink, fsLookup, List.find?_filter]
  have hfun : (fun a : String × String => decide ((a.1 != p) = true ∧ (a.1 == q) = true))
      = (fun a : String × String => a.1 == q) := by
    funext a
    by_cases ha : a.1 = q
    · have h1 : (a.1 != p) = true := by rw [ha]; simpa using h
      simp [h1, ha]
      exact h
    · have h1 : (a.1 == q) = false := beq_eq_false_iff_ne.mpr ha
      simp [h1]
  rw [hfun]

theorem withSuffix_inj_suffix (p : String) {s t : String}
    (h : withSuffix p s = withSuffix p t) : s = t := by
  have h2 : withSuffixBase p.data ++ s.data = withSuffixBase p.data ++ t.data :=
    congrArg String.data h
  exact stringDataInj (List.append_cancel_left h2)

theorem dot_append_ne {fmt : String} (h : fmt ≠ ("txt")) : (("." ) ++ fmt) ≠ (".txt") := by
  intro hc
  apply h
  have hd : (("." ) ++ fmt).data = ((".txt") : String).data := by rw [hc]
  rw [String.data_append] at hd
  have h1 : ((("." ) : String)).data = ['.'] := rfl
  have h2 : (((".txt") : String)).data = ['.', 't', 'x', 't'] := rfl
  have h3 : ((("txt") : String)).data = ['t', 'x', 't'] := rfl
  rw [h1, h2] at hd
  apply stringDataInj
  rw [h3]
  simpa using hd

theorem textPath_ne_audioPath (cfg : AppConfig) (cs : CharSem) (info : VideoInfo)
    (hfmt : cfg.audio_format ≠ ("txt")) :
    textPathOf cfg cs info ≠ audioPathOf cfg cs info := by
  intro hc
  exact dot_append_ne hfmt (withSuffix_inj_suffix _ hc).symm

theorem safe_filename_chars (cs : CharSem) (maxLen : Nat) (title : String) :
    ∀ c ∈ (create_safe_filename cs maxLen title).data,
      (cs.isalnum c || c == '-' || c == '_') = true ∧ c ≠ ' ' := by
  intro c hc
  have hc2 : c ∈ (title.data.filter
      (fun ch => cs.isalnum ch || ch == ' ' || ch == '-' || ch == '_')).map
      (fun ch => if ch == ' ' then '_' else ch) := List.mem_of_mem_take hc
  obtain ⟨d, hd, rfl⟩ := List.mem_map.mp hc2
  have hpd := List.of_mem_filter hd
  by_cases hsp : d = ' '
  · subst hsp
    simp
  · have hne : (d == ' ') = false := beq_eq_false_iff_ne.mpr hsp
    have hcc : (if d == ' ' then '_' else d) = d := by rw [hne]; simp
    rw [hcc]
    refine ⟨?_, hsp⟩
    simp only [Bool.or_eq_true] at hpd ⊢
    rcases hpd with ((h1 | h2) | h3) | h4
    · exact Or.inl (Or.inl h1)
    · exact absurd (by simpa using h2) hsp
    · exact Or.inl (Or.inr h3)
    · exact Or.inr h4

theorem safe_filename_length (cs : CharSem) (maxLen : Nat) (title : String) :
    (create_safe_filename cs maxLen title).length ≤ maxLen := by
  show (List.take maxLen _).length ≤ maxLen
  rw [List.length_take]
  exact Nat.min_le_left _ _

theorem dropWhile_head_false {p : Char → Bool} {l t : List Char} {c : Char}
    (h : l.dropWhile p = c :: t) : p c = false := by
  have := List.head?_dropWhile_not p l
  rw [h] at this
  simpa using this

theorem dropWhile_idem (p : Char → Bool) (l : List Char) :
    (l.dropWhile p).dropWhile p = l.dropWhile p := by
  cases h : l.dropWhile p with
  | nil => simp
  | cons c t =>
    rw [List.dropWhile_cons, dropWhile_head_false h]
    simp

theorem dropWhile_exists_prepend (p : Char → Bool) (l : List Char) :
    ∃ pre, l = pre ++ l.dropWhile p := by
  induction l with
  | nil => exact ⟨[], rfl⟩
  | cons c t ih =>
    by_cases h : p c = true
    · obtain ⟨pre, hp⟩ := ih
      refine ⟨c :: pre, ?_⟩
      rw [List.dropWhile_cons, if_pos h, List.cons_append]
      exact congrArg (c :: ·) hp
    · refine ⟨[], ?_⟩
      rw [List.dropWhile_cons, if_neg h, List.nil_append]

theorem pyStrip_idem (cs : CharSem) (s : String) :
    pyStrip cs (pyStrip cs s) = pyStrip cs s := by
  unfold pyStrip
  apply stringDataInj
  simp only
  set p := cs.isspace with hp
  set l1 := s.data.dropWhile p with hl1
  set l2 := (l1.reverse.dropWhile p).reverse with hl2
  have h1 : l2.dropWhile p = l2 := by
    cases hc : l2 with
    | nil => simp
    | cons c t =>
      obtain ⟨pre, hpre⟩ := dropWhile_exists_prepend p l1.reverse
      have hl1e : l1 = l2 ++ pre.reverse := by
        have := congrArg List.reverse hpre
        rw [List.reverse_reverse, List.reverse_append] at this
        rw [this, hl2]
      have hl1c : s.data.dropWhile p = c :: (t ++ pre.reverse) := by
        rw [← hl1, hl1e, hc]
        simp
      have hpc := dropWhile_head_false hl1c
      rw [List.dropWhile_cons, hpc]
      simp
  have h2 : l2.reverse.dropWhile p = l2.reverse := by
    have hrev : l2.reverse = l1.reverse.dropWhile p := by
      rw [hl2, List.reverse_reverse]
    rw [hrev, dropWhile_idem]
  rw [h1, h2, List.reverse_reverse]

/- ------------------------------------------------------------------ -/
/- Claims C4 and C8: the filename sanitizer.                           -/
/- ------------------------------------------------------------------ -/

/-- Claim C4: for every title and configured maximum length, the
sanitizer's output has at most `maxLen` characters, and every output
character is alphanumeric (per the runtime's classification), a hyphen,
or an underscore — never a space (spaces were replaced by underscores
before truncation). -/
theorem c4_sanitizer_output (cs : CharSem) (maxLen : Nat) (title : String) :
    (create_safe_filename cs maxLen title).length ≤ maxLen
    ∧ (create_safe_filename cs maxLen title).data.all
        (fun c => ((cs.isalnum c || c == '-' || c == '_') && !(c == ' '))) = true := by
  refine ⟨safe_filename_length cs maxLen title, ?_⟩
  rw [List.all_eq_true]
  intro c hc
  obtain ⟨h1, h2⟩ := safe_filename_chars cs maxLen title c hc
  simp [h1, h2]

/-- Claim C8: the sanitizer is idempotent — applying it to its own
output returns that output unchanged. -/
theorem c8_sanitizer_idempotent (cs : CharSem) (maxLen : Nat) (title : String) :
    create_safe_filename cs maxLen (create_safe_filename cs maxLen title)
      = create_safe_filename cs maxLen title := by
  have hchars := safe_filename_chars cs maxLen title
  have hlen := safe_filename_length cs maxLen title
  conv_lhs => rw [create_safe_filename]
  apply stringDataInj
  simp only
  set l := (create_safe_filename cs maxLen title).data with hl
  have hfilter : l.filter
      (fun ch => cs.isalnum ch || ch == ' ' || ch == '-' || ch == '_') = l := by
    apply List.filter_eq_self.mpr
    intro c hc
    obtain ⟨h1, _⟩ := hchars c hc
    simp only [Bool.or_eq_true] at h1 ⊢
    rcases h1 with (ha | hb) | hc2
    · exact Or.inl (Or.inl (Or.inl ha))
    · exact Or.inl (Or.inr hb)
    · exact Or.inr hc2
  have hmap : l.map (fun ch => if ch == ' ' then '_' else ch) = l := by
    have hcongr : l.map (fun ch => if ch == ' ' then '_' else ch) = l.map id := by
      apply List.map_congr_left
      intro c hc
      obtain ⟨_, h2⟩ := hchars c hc
      have hne : (c == ' ') = false := beq_eq_false_iff_ne.mpr h2
      rw [hne]
      simp
    rw [hcongr, List.map_id]
  have htake : l.take maxLen = l := by
    apply List.take_of_length_le
    exact hlen
  rw [hfilter, hmap, htake]

theorem result_url_eq (cfg : AppConfig) (cs : CharSem) (w : ItemWorld) (url now : String)
    (fs : Fs) (r : ItemResult)
    (h : (generate_single_subtitle_detailed cfg cs w url now fs).1 = some r) : r.url = url := by
  obtain ⟨winfo, wdl, wtr⟩ := w
  unfold generate_single_subtitle_detailed at h
  by_cases hv : validate_youtube_url url = false
  · rw [if_pos hv] at h
    simp at h
  · rw [if_neg hv] at h
    cases winfo with
    | none => simp at h
    | some info =>
      simp only at h
      cases wdl with
      | failClean => simp at h
      | failLeavingFile => simp at h
      | ok =>
        simp only [fsExists_write, beq_self_eq_true, Bool.true_or] at h
        simp only [Bool.true_eq_false, if_false] at h
        cases wtr with
        | none => simp at h
        | some t =>
          simp only at h
          have h2 := Option.some.inj h
          rw [← h2]
      | okMissing =>
        by_cases hex : fsExists fs (withSuffix (pathJoin cfg.output_directory (create_safe_filename cs cfg.max_filename_length info.title)) (("." ) ++ cfg.audio_format)) = false
        · rw [if_pos hex] at h
          simp at h
        · rw [if_neg hex] at h
          cases wtr with
          | none => simp at h
          | some t =>
            simp only at h
            have h2 := Option.some.inj h
            rw [← h2]

/-- Claim C1 (amended): provided no file already sits at the derived audio
path, the configured audio extension is not "txt", and the download step did
not itself raise after leaving a partial file there, no audio artifact file
exists at the derived audio path after either single-item processor returns
(success or failure alike).  The original claim, which also promised cleanup
when the download raises after producing a file, is refuted by
`c1_counterexample`: on that path the handler's bound-variable probe fails
and nothing is deleted. -/
theorem c1_cleanup_amended (cfg : AppConfig) (cs : CharSem) (w : ItemWorld)
    (url now : String) (fs : Fs) (p : String)
    (hp : derivedAudioPath cfg cs w = some p)
    (h0 : fsExists fs p = false)
    (hdl : w.download ≠ DownloadOutcome.failLeavingFile)
    (hfmt : cfg.audio_format ≠ ("txt")) :
    fsExists (generate_single_subtitle_detailed cfg cs w url now fs).2 p = false
    ∧ fsExists (generate_subtitles cfg cs w url fs).2 p = false := by
  obtain ⟨winfo, wdl, wtr⟩ := w
  cases winfo with
  | none => simp [derivedAudioPath] at hp
  | some info =>
    have hp2 : audioPathOf cfg cs info = p := by simpa [derivedAudioPath] using hp
    subst hp2
    simp only [derivedAudioPath, audioPathOf] at h0 ⊢
    have htne : withSuffix (pathJoin cfg.output_directory
        (create_safe_filename cs cfg.max_filename_length info.title)) (".txt")
        ≠ withSuffix (pathJoin cfg.output_directory
        (create_safe_filename cs cfg.max_filename_length info.title)) (("." ) ++ cfg.audio_format) := by
      have := textPath_ne_audioPath cfg cs info hfmt
      simpa [textPathOf, audioPathOf] using this
    have hbne : (withSuffix (pathJoin cfg.output_directory
        (create_safe_filename cs cfg.max_filename_length info.title)) (".txt")
        == withSuffix (pathJoin cfg.output_directory
        (create_safe_filename cs cfg.max_filename_length info.title)) (("." ) ++ cfg.audio_format)) = false :=
      beq_eq_false_iff_ne.mpr htne
    constructor
    · unfold generate_single_subtitle_detailed
      by_cases hv : validate_youtube_url url = false
      · rw [if_pos hv]
        exact h0
      · rw [if_neg hv]
        simp only
        cases wdl with
        | failClean => exact h0
        | failLeavingFile => exact absurd rfl hdl
        | ok =>
          simp only [fsExists_write, beq_self_eq_true, Bool.true_or, Bool.true_eq_false, if_false]
          cases wtr with
          | none =>
            simp only [fsExists_write, beq_self_eq_true, Bool.true_or, if_true]
            exact fsExists_unlink_self _ _
          | some t =>
            simp only [fsExists_write, hbne, Bool.false_or]
            exact fsExists_unlink_self _ _
        | okMissing =>
          rw [if_pos h0]
          exact h0
    · unfold generate_subtitles
      simp only
      cases wdl with
      | failClean => exact h0
      | failLeavingFile => exact absurd rfl hdl
      | ok =>
        simp only [fsExists_write, beq_self_eq_true, Bool.true_or, Bool.true_eq_false, if_false]
        cases wtr with
        | none =>
          simp only [fsExists_write, beq_self_eq_true, Bool.true_or, if_true]
          exact fsExists_unlink_self _ _
        | some t =>
          simp only [fsExists_write, hbne, Bool.false_or]
          exact fsExists_unlink_self _ _
      | okMissing =>
        rw [if_pos h0]
        exact h0

/-- Claim C2 (amended): if sanitization of the resolved title yields the
empty string, the single-item processor does not fail; it silently continues
with the empty filename (deriving its paths from the output directory
itself) and, when download and transcription succeed, returns a successful
result whose filename field is empty.  The original claim (an EmptyFilename
failure) is refuted by `c2_counterexample`: the code has no emptiness
check. -/
theorem c2_empty_filename_amended (cfg : AppConfig) (cs : CharSem) (w : ItemWorld)
    (url now : String) (fs : Fs) (info : VideoInfo) (t : String)
    (hv : validate_youtube_url url = true)
    (hi : w.info = some info)
    (hs : create_safe_filename cs cfg.max_filename_length info.title = (""))
    (hd : w.download = DownloadOutcome.ok)
    (ht : w.transcription = some t) :
    (generate_single_subtitle_detailed cfg cs w url now fs).1.map (fun r => r.filename)
      = some ("") := by
  obtain ⟨winfo, wdl, wtr⟩ := w
  cases hi
  cases hd
  cases ht
  unfold generate_single_subtitle_detailed
  rw [if_neg (by rw [hv]; simp)]
  simp only [fsExists_write, beq_self_eq_true, Bool.true_or, Bool.true_eq_false, if_false]
  simp [hs]

/-- Claim C5 (amended): for a failed item (with a clean initial state at the
derived audio path, an audio extension other than "txt", and a download that
did not raise after leaving a partial file), the transcript `.txt` file is
untouched — it is written only after transcription succeeds — and the audio
artifact does not exist after the processor returns.  The original claim's
unconditional "the audio artifact is removed" is refuted by
`c5_counterexample`. -/
theorem c5_failed_item_amended (cfg : AppConfig) (cs : CharSem) (w : ItemWorld)
    (url now : String) (fs : Fs) (info : VideoInfo)
    (hi : w.info = some info)
    (h0 : fsExists fs (audioPathOf cfg cs info) = false)
    (hfmt : cfg.audio_format ≠ ("txt"))
    (hdl : w.download ≠ DownloadOutcome.failLeavingFile)
    (hfail : (generate_single_subtitle_detailed cfg cs w url now fs).1 = none) :
    fsLookup (generate_single_subtitle_detailed cfg cs w url now fs).2 (textPathOf cfg cs info)
      = fsLookup fs (textPathOf cfg cs info)
    ∧ fsExists (generate_single_subtitle_detailed cfg cs w url now fs).2
        (audioPathOf cfg cs info) = false := by
  obtain ⟨winfo, wdl, wtr⟩ := w
  cases hi
  simp only [audioPathOf, textPathOf] at h0 ⊢
  have htne : withSuffix (pathJoin cfg.output_directory
      (create_safe_filename cs cfg.max_filename_length info.title)) (".txt")
      ≠ withSuffix (pathJoin cfg.output_directory
      (create_safe_filename cs cfg.max_filename_length info.title)) (("." ) ++ cfg.audio_format) := by
    have := textPath_ne_audioPath cfg cs info hfmt
    simpa [textPathOf, audioPathOf] using this
  unfold generate_single_subtitle_detailed at hfail ⊢
  by_cases hv : validate_youtube_url url = false
  · rw [if_pos hv]
    exact ⟨rfl, h0⟩
  · rw [if_neg hv] at hfail ⊢
    simp only at hfail ⊢
    cases wdl with
    | failClean => exact ⟨rfl, h0⟩
    | failLeavingFile => exact absurd rfl hdl
    | ok =>
      simp only [fsExists_write, beq_self_eq_true, Bool.true_or, Bool.true_eq_false, if_false]
        at hfail ⊢
      cases wtr with
      | none =>
        simp only [fsExists_write, beq_self_eq_true, Bool.true_or, if_true]
        constructor
        · rw [fsLookup_unlink_ne _ _ _ htne, fsLookup_write_ne _ _ _ _ htne]
        · exact fsExists_unlink_self _ _
      | some t => simp at hfail
    | okMissing =>
      rw [if_pos h0] at hfail ⊢
      exact ⟨rfl, h0⟩

theorem listStartsWith_iff (n l : List Char) :
    listStartsWith l n = true ↔ ∃ post, l = n ++ post := by
  induction n generalizing l with
  | nil =>
    have hL : listStartsWith l [] = true := by cases l <;> rfl
    simp [hL]
  | cons b bs ih =>
    cases l with
    | nil => simp [listStartsWith]
    | cons a as =>
      simp only [listStartsWith, Bool.and_eq_true, beq_iff_eq, ih, List.cons_append,
        List.cons.injEq]
      constructor
      · rintro ⟨rfl, post, rfl⟩
        exact ⟨post, rfl, rfl⟩
      · rintro ⟨post, rfl, rfl⟩
        exact ⟨rfl, post, rfl⟩

theorem listContainsSub_iff (hay n : List Char) :
    listContainsSub hay n = true ↔ ∃ pre post, hay = pre ++ n ++ post := by
  induction hay with
  | nil =>
    simp only [listContainsSub, List.isEmpty_iff]
    constructor
    · rintro rfl
      exact ⟨[], [], rfl⟩
    · rintro ⟨pre, post, h⟩
      have h2 := h.symm
      rw [List.append_assoc] at h2
      rcases List.append_eq_nil.mp h2 with ⟨-, h3⟩
      rcases List.append_eq_nil.mp h3 with ⟨h4, -⟩
      exact h4
  | cons a as ih =>
    simp only [listContainsSub, Bool.or_eq_true, listStartsWith_iff, ih]
    constructor
    · rintro (⟨post, h⟩ | ⟨pre, post, h⟩)
      · exact ⟨[], post, by simpa using h⟩
      · exact ⟨a :: pre, post, by simp [h]⟩
    · rintro ⟨pre, post, h⟩
      cases pre with
      | nil =>
        exact Or.inl ⟨post, by simpa using h⟩
      | cons p ps =>
        simp only [List.cons_append, List.cons.injEq] at h
        exact Or.inr ⟨ps, post, h.2⟩

/-- Claim C7: a URL is accepted iff it contains "youtube.com" or "youtu.be"
as a contiguous substring (a substring match, not a URL parse), and the
single-item processor rejects an unaccepted URL by returning a failure with
the filesystem untouched and without consulting any external collaborator
(the result is the same for every world), i.e. before any acquisition
step. -/
theorem c7_url_validation (url : String) :
    (validate_youtube_url url = true ↔
      (∃ pre post, url.data = pre ++ (("youtube.com") : String).data ++ post)
      ∨ (∃ pre post, url.data = pre ++ (("youtu.be") : String).data ++ post))
    ∧ (validate_youtube_url url = false →
        ∀ (cfg : AppConfig) (cs : CharSem) (w : ItemWorld) (now : String) (fs : Fs),
          generate_single_subtitle_detailed cfg cs w url now fs = (none, fs)) := by
  constructor
  · simp only [validate_youtube_url, List.any_cons, List.any_nil, Bool.or_false,
      Bool.or_eq_true, listContainsSub_iff]
  · intro hv cfg cs w now fs
    unfold generate_single_subtitle_detailed
    rw [if_pos hv]

/-- Claim C1, counterexample: with metadata resolved to the title "Talk" and
a download that leaves a partial file at downloads/Talk.mp3 before raising,
`generate_single_subtitle_detailed` returns a failure yet the audio file is
still present at the derived path after it returns. -/
theorem c1_counterexample :
    (generate_single_subtitle_detailed cfgDefault asciiCharSem wC1 urlC1 ("t0") []).1 = none
    ∧ fsExists (generate_single_subtitle_detailed cfgDefault asciiCharSem wC1 urlC1
        ("t0") []).2 ("downloads/Talk.mp3") = true
    ∧ derivedAudioPath cfgDefault asciiCharSem wC1 = some ("downloads/Talk.mp3") := by
  refine ⟨?_, ?_, ?_⟩ <;> decide

/-- Claim C1, witness: a concrete run (download succeeds, transcription
raises) in which the amended cleanup theorem applies and the derived audio
path downloads/Clip.mp3 is indeed clean after both processors return. -/
theorem c1_witness :
    fsExists (generate_single_subtitle_detailed cfgDefault asciiCharSem wW1
      ("https://youtu.be/clip") ("t0") []).2 ("downloads/Clip.mp3") = false
    ∧ fsExists (generate_subtitles cfgDefault asciiCharSem wW1
      ("https://youtu.be/clip") []).2 ("downloads/Clip.mp3") = false :=
  c1_cleanup_amended cfgDefault asciiCharSem wW1 ("https://youtu.be/clip") ("t0") []
    ("downloads/Clip.mp3") (by decide) (by decide) (by decide) (by decide)

/-- Claim C2, counterexample: the title "!!!" sanitises to the empty string,
yet `generate_single_subtitle_detailed` succeeds on it rather than failing
with a reportable EmptyFilename failure. -/
theorem c2_counterexample :
    create_safe_filename asciiCharSem 100 ("!!!") = ("")
    ∧ (generate_single_subtitle_detailed cfgDefault asciiCharSem wC2
        ("https://www.youtube.com/watch?v=abc") ("t0") []).1.isSome = true := by
  refine ⟨?_, ?_⟩ <;> decide

/-- Claim C2, witness: the amended theorem applied at the concrete
empty-sanitising title, showing the returned result carries an empty
filename. -/
theorem c2_witness :
    (generate_single_subtitle_detailed cfgDefault asciiCharSem wC2
      ("https://www.youtube.com/watch?v=abc") ("t0") []).1.map (fun r => r.filename)
      = some ("") :=
  c2_empty_filename_amended cfgDefault asciiCharSem wC2 ("https://www.youtube.com/watch?v=abc")
    ("t0") [] ⟨("!!!"), none⟩ ("hello") (by decide) (by decide) (by decide) (by decide) (by decide)

/-- Claim C5, counterexample: a failed item (download raises after leaving a
partial file at downloads/Demo.mp3) for which the audio artifact is NOT
removed: an output file is left behind for a failed item. -/
theorem c5_counterexample :
    (generate_single_subtitle_detailed cfgDefault asciiCharSem wC5 urlC5 ("t0") []).1 = none
    ∧ fsExists (generate_single_subtitle_detailed cfgDefault asciiCharSem wC5 urlC5
        ("t0") []).2 ("downloads/Demo.mp3") = true := by
  refine ⟨?_, ?_⟩ <;> decide

/-- Claim C5, witness: the amended theorem applied at a concrete failing run
(download ok, transcription raises): the text path is untouched and the
audio path is clean. -/
theorem c5_witness :
    fsLookup (generate_single_subtitle_detailed cfgDefault asciiCharSem wW5
      ("https://youtu.be/clip2") ("t0") []).2 (textPathOf cfgDefault asciiCharSem ⟨("Clip2"), none⟩)
      = fsLookup [] (textPathOf cfgDefault asciiCharSem ⟨("Clip2"), none⟩)
    ∧ fsExists (generate_single_subtitle_detailed cfgDefault asciiCharSem wW5
      ("https://youtu.be/clip2") ("t0") []).2 (audioPathOf cfgDefault asciiCharSem ⟨("Clip2"), none⟩) = false :=
  c5_failed_item_amended cfgDefault asciiCharSem wW5 ("https://youtu.be/clip2") ("t0") []
    ⟨("Clip2"), none⟩ (by decide) (by decide) (by decide) (by decide) (by decide)

/-- Claim C7, witness: the processor applied to the concrete non-YouTube URL
https://example.com/v fails and leaves the (empty) filesystem unchanged. -/
theorem c7_witness :
    generate_single_subtitle_detailed cfgDefault asciiCharSem wC2
      ("https://example.com/v") ("t0") [] = (none, []) :=
  (c7_url_validation ("https://example.com/v")).2 (by decide) cfgDefault asciiCharSem wC2 ("t0") []

theorem isProgress_progress (i t : Nat) (u : String) :
    (LogEvent.progress i t u).isProgress = true := rfl

theorem isProgress_completed (t : String) : (LogEvent.completed t).isProgress = false := rfl

theorem isProgress_failed (u : String) : (LogEvent.failed u).isProgress = false := rfl

theorem batchAux_report (cfg : AppConfig) (cs : CharSem) (env : String → ItemWorld)
    (now : String) (total : Nat) :
    ∀ (urls : List String) (i : Nat) (fs : Fs),
      (batchAux cfg cs env now total i urls fs).1
        = (batchOutcomes cfg cs env now urls fs).filterMap id
      ∧ (batchAux cfg cs env now total i urls fs).1.length
        = (batchOutcomes cfg cs env now urls fs).countP (fun o => o.isSome)
      ∧ List.Sublist ((batchAux cfg cs env now total i urls fs).1.map (fun r => r.url))
          (urls.map (fun u => pyStrip cs u))
      ∧ ((batchAux cfg cs env now total i urls fs).2.2.countP (fun e => e.isProgress))
        = urls.length := by
  intro urls
  induction urls with
  | nil =>
    intro i fs
    exact ⟨rfl, rfl, List.Sublist.slnil, rfl⟩
  | cons url rest ih =>
    intro i fs
    simp only [batchAux, batchOutcomes]
    cases hstep : (generate_single_subtitle_detailed cfg cs (env (pyStrip cs url))
        (pyStrip cs url) now fs).1 with
    | some r =>
      obtain ⟨ih1, ih2, ih3, ih4⟩ := ih (i + 1)
        (generate_single_subtitle_detailed cfg cs (env (pyStrip cs url))
          (pyStrip cs url) now fs).2
      simp only [hstep, List.filterMap_cons, id, List.map_cons, List.countP_cons,
        List.length_cons, Option.isSome_some, if_true]
      refine ⟨by rw [ih1], by rw [ih2], ?_, ?_⟩
      · have hu : r.url = pyStrip cs url := result_url_eq _ _ _ _ _ _ _ hstep
        rw [hu]
        exact ih3.cons₂ _
      · simp only [List.countP_cons, isProgress_progress, isProgress_completed, ih4]
        simp
    | none =>
      obtain ⟨ih1, ih2, ih3, ih4⟩ := ih (i + 1)
        (generate_single_subtitle_detailed cfg cs (env (pyStrip cs url))
          (pyStrip cs url) now fs).2
      simp only [hstep, List.filterMap_cons, id, List.map_cons, List.countP_cons,
        List.length_cons, Option.isSome_none, if_false]
      refine ⟨ih1, by rw [ih2]; simp, ih3.cons _, ?_⟩
      simp only [List.countP_cons, isProgress_progress, isProgress_failed, ih4]
      simp

theorem batchAux_strip (cfg : AppConfig) (cs : CharSem) (env : String → ItemWorld)
    (now : String) (total : Nat) :
    ∀ (urls : List String) (i : Nat) (fs : Fs),
      (batchAux cfg cs env now total i (urls.map (pyStrip cs)) fs).1
        = (batchAux cfg cs env now total i urls fs).1
      ∧ (batchAux cfg cs env now total i (urls.map (pyStrip cs)) fs).2.1
        = (batchAux cfg cs env now total i urls fs).2.1 := by
  intro urls
  induction urls with
  | nil =>
    intro i fs
    exact ⟨rfl, rfl⟩
  | cons url rest ih =>
    intro i fs
    simp only [List.map_cons, batchAux, pyStrip_idem]
    cases hstep : (generate_single_subtitle_detailed cfg cs (env (pyStrip cs url))
        (pyStrip cs url) now fs).1 with
    | some r =>
      obtain ⟨ih1, ih2⟩ := ih (i + 1)
        (generate_single_subtitle_detailed cfg cs (env (pyStrip cs url))
          (pyStrip cs url) now fs).2
      simp only [hstep]
      exact ⟨by rw [ih1], by rw [ih2]⟩
    | none =>
      obtain ⟨ih1, ih2⟩ := ih (i + 1)
        (generate_single_subtitle_detailed cfg cs (env (pyStrip cs url))
          (pyStrip cs url) now fs).2
      simp only [hstep]
      exact ⟨by rw [ih1], by rw [ih2]⟩

theorem batchAux_failed_mem (cfg : AppConfig) (cs : CharSem) (env : String → ItemWorld)
    (now : String) (total : Nat) :
    ∀ (urls : List String) (i : Nat) (fs : Fs) (j : Nat) (u : String),
      (batchOutcomes cfg cs env now urls fs)[j]? = some none →
      urls[j]? = some u →
      LogEvent.failed u ∈ (batchAux cfg cs env now total i urls fs).2.2 := by
  intro urls
  induction urls with
  | nil =>
    intro i fs j u h1 h2
    simp [batchOutcomes] at h1
  | cons url rest ih =>
    intro i fs j u h1 h2
    cases j with
    | zero =>
      simp only [batchOutcomes, List.getElem?_cons_zero, Option.some.injEq] at h1 h2
      subst h2
      simp only [batchAux, h1]
      simp
    | succ j =>
      simp only [batchOutcomes, List.getElem?_cons_succ] at h1 h2
      have hm := ih (i + 1)
        (generate_single_subtitle_detailed cfg cs (env (pyStrip cs url))
          (pyStrip cs url) now fs).2 j u h1 h2
      simp only [batchAux]
      cases hstep : (generate_single_subtitle_detailed cfg cs (env (pyStrip cs url))
          (pyStrip cs url) now fs).1 with
      | some r =>
        simp only [hstep]
        simp only [List.mem_cons]
        exact Or.inr (Or.inr hm)
      | none =>
        simp only [hstep]
        simp only [List.mem_cons]
        exact Or.inr (Or.inr hm)

/-- Claim C3: the batch orchestrator processes URLs strictly in input order
and never aborts on an item failure: its report is exactly the ordered
sequence of successful item outcomes, its length equals the count of
successful items, the report's urls form a subsequence of the (stripped)
input order, and every input URL receives its progress line (the loop
reaches every item). -/
theorem c3_batch_report (cfg : AppConfig) (cs : CharSem) (env : String → ItemWorld)
    (now : String) (urls : List String) (fs : Fs) :
    (generate_batch_subtitles cfg cs env now urls fs).1
      = (batchOutcomes cfg cs env now urls fs).filterMap id
    ∧ (generate_batch_subtitles cfg cs env now urls fs).1.length
      = (batchOutcomes cfg cs env now urls fs).countP (fun o => o.isSome)
    ∧ List.Sublist ((generate_batch_subtitles cfg cs env now urls fs).1.map (fun r => r.url))
        (urls.map (fun u => pyStrip cs u))
    ∧ ((generate_batch_subtitles cfg cs env now urls fs).2.2.countP (fun e => e.isProgress))
      = urls.length := by
  unfold generate_batch_subtitles
  exact batchAux_report cfg cs env now urls.length urls 1 fs

/-- Claim C10: the batch loop strips surrounding whitespace from each entry
before handing it to the single-item processor — so a batch over the
pre-stripped list yields the same report and filesystem, meaning surrounding
whitespace never by itself changes an item's outcome — while the failure log
line of a failed item reports the original unstripped entry. -/
theorem c10_batch_strip (cfg : AppConfig) (cs : CharSem) (env : String → ItemWorld)
    (now : String) (urls : List String) (fs : Fs) :
    ((generate_batch_subtitles cfg cs env now (urls.map (pyStrip cs)) fs).1
       = (generate_batch_subtitles cfg cs env now urls fs).1
     ∧ (generate_batch_subtitles cfg cs env now (urls.map (pyStrip cs)) fs).2.1
       = (generate_batch_subtitles cfg cs env now urls fs).2.1)
    ∧ ∀ (j : Nat) (u : String),
        (batchOutcomes cfg cs env now urls fs)[j]? = some none →
        urls[j]? = some u →
        LogEvent.failed u ∈ (generate_batch_subtitles cfg cs env now urls fs).2.2 := by
  constructor
  · unfold generate_batch_subtitles
    rw [List.length_map]
    exact batchAux_strip cfg cs env now urls.length urls 1 fs
  · intro j u h1 h2
    unfold generate_batch_subtitles
    exact batchAux_failed_mem cfg cs env now urls.length urls 1 fs j u h1 h2

/-- Claim C10, witness: a concrete batch containing one padded failing URL
whose failure log line carries the original padded string. -/
theorem c10_witness :
    LogEvent.failed urlC10 ∈ (generate_batch_subtitles cfgDefault asciiCharSem
      (fun _ => wC10) ("t0") [urlC10] []).2.2 :=
  (c10_batch_strip cfgDefault asciiCharSem (fun _ => wC10) ("t0") [urlC10] []).2 0 urlC10
    (by decide) (by decide)

theorem parseRaw_append (l : List Char) (hl : ∀ c ∈ l, csvSpecialChar c = false)
    (rest : List Char) (hb : CsvBoundary rest) :
    parseRaw (l ++ rest) = (⟨l⟩, rest) := by
  induction l with
  | nil =>
    rcases hb with h | ⟨r, h | h⟩
    · subst h
      rfl
    · subst h
      simp [parseRaw, csvSpecialChar]
    · subst h
      simp [parseRaw, csvSpecialChar]
  | cons c t ih =>
    have hc := hl c (List.mem_cons_self c t)
    have ht : ∀ x ∈ t, csvSpecialChar x = false := fun x hx => hl x (List.mem_cons_of_mem c hx)
    simp only [List.cons_append, parseRaw, hc, Bool.false_eq_true, if_false, List.append_eq]
    rw [ih ht]

theorem csvEscapeData_cons (c : Char) (t : List Char) :
    csvEscapeData (c :: t) = (if c == '"' then ['"', '"'] else [c]) ++ csvEscapeData t := rfl

theorem parseQuoted_nil (acc : List Char) : parseQuoted acc [] = (⟨acc.reverse⟩, []) := by
  unfold parseQuoted
  rfl

theorem parseQuoted_cons (acc : List Char) (c : Char) (rest : List Char) :
    parseQuoted acc (c :: rest) =
      if c == '"' then
        match rest with
        | r2 :: rest2 =>
          if r2 == '"' then parseQuoted ('"' :: acc) rest2 else (⟨acc.reverse⟩, rest)
        | [] => (⟨acc.reverse⟩, rest)
      else parseQuoted (c :: acc) rest := by
  conv_lhs => unfold parseQuoted

theorem parseQuoted_append (l : List Char) : ∀ (acc rest : List Char),
    rest.head? ≠ some '"' →
    parseQuoted acc (csvEscapeData l ++ '"' :: rest) = (⟨acc.reverse ++ l⟩, rest) := by
  induction l with
  | nil =>
    intro acc rest hq
    have h0 : csvEscapeData [] = [] := rfl
    rw [h0, List.nil_append, parseQuoted_cons]
    simp only [beq_self_eq_true, if_true]
    cases rest with
    | nil => simp
    | cons r rs =>
      have hr : (r == '"') = false := beq_eq_false_iff_ne.mpr (fun hc => hq (by rw [hc]; rfl))
      simp [hr]
  | cons c t ih =>
    intro acc rest hq
    by_cases hc : c = '"'
    · subst hc
      rw [csvEscapeData_cons]
      simp only [beq_self_eq_true, if_true, List.cons_append, List.nil_append,
        List.append_assoc]
      rw [parseQuoted_cons]
      simp only [beq_self_eq_true, if_true]
      rw [ih ('"' :: acc) rest hq]
      simp
    · have hcb : (c == '"') = false := beq_eq_false_iff_ne.mpr hc
      rw [csvEscapeData_cons]
      simp only [hcb, Bool.false_eq_true, if_false, List.singleton_append, List.cons_append]
      rw [parseQuoted_cons]
      simp only [hcb, Bool.false_eq_true, if_false, List.nil_append]
      rw [ih (c :: acc) rest hq]
      simp

theorem csvBoundary_head (rest : List Char) (hb : CsvBoundary rest) :
    rest.head? ≠ some '"' := by
  rcases hb with h | ⟨r, h | h⟩ <;> subst h <;> simp

theorem parseField_render (f : String) (rest : List Char) (hb : CsvBoundary rest) :
    parseField ((csvRenderField f).data ++ rest) = (f, rest) := by
  by_cases h : csvNeedsQuoting f = true
  · have hdq : ((("\"") : String)).data = ['"'] := rfl
    have hdata : (csvRenderField f).data = '"' :: (csvEscapeData f.data ++ ['"']) := by
      simp [csvRenderField, h, String.data_append, hdq]
    rw [hdata]
    simp only [List.cons_append, List.append_assoc, List.singleton_append, List.nil_append]
    simp only [parseField, beq_self_eq_true, if_true]
    rw [parseQuoted_append f.data [] rest (csvBoundary_head rest hb)]
    simp
  · have hno : ∀ c ∈ f.data, csvSpecialChar c = false := by
      intro c hc
      by_contra hcc
      have hct : csvSpecialChar c = true := by simpa using hcc
      exact h (List.any_eq_true.mpr ⟨c, hc, hct⟩)
    have hrf : csvRenderField f = f := by
      simp [csvRenderField, h]
    rw [hrf]
    cases hf : f.data with
    | nil =>
      have hfe : f = ("" : String) := stringDataInj (by rw [hf])
      subst hfe
      rcases hb with hr | ⟨r, hr | hr⟩ <;> subst hr
      · rfl
      · rw [List.nil_append]
        have hc1 : ((',' : Char) == '"') = false := by decide
        have hc2 : csvSpecialChar ',' = true := by decide
        simp [parseField, parseRaw, hc1, hc2]
      · rw [List.nil_append]
        have hc1 : (('\r' : Char) == '"') = false := by decide
        have hc2 : csvSpecialChar '\r' = true := by decide
        simp [parseField, parseRaw, hc1, hc2]
    | cons c cs2 =>
      rw [List.cons_append]
      have hcsp : csvSpecialChar c = false := hno c (by rw [hf]; exact List.mem_cons_self c cs2)
      have hcq : (c == '"') = false := by
        simp only [csvSpecialChar, Bool.or_eq_true] at hcsp
        simp only [Bool.or_eq_false_iff] at hcsp
        exact hcsp.1.1.2
      simp only [parseField, hcq, Bool.false_eq_true, if_false]
      have he : c :: (cs2 ++ rest) = f.data ++ rest := by simp [hf]
      rw [he, parseRaw_append f.data hno rest hb]

theorem csvRenderRow_data (fields : List String) :
    (csvRenderRow fields).data = (csvRenderRowBody fields).data ++ '\r' :: '\n' :: [] := by
  have h1 : ((("\r\n") : String)).data = ['\r', '\n'] := rfl
  simp [csvRenderRow, String.data_append, h1]

theorem parseRecordAux_render (fs2 : List String) : ∀ (f : String) (fuel : Nat) (rest : List Char),
    fs2.length + 1 ≤ fuel →
    parseRecordAux fuel ((csvRenderRow (f :: fs2)).data ++ rest) = (f :: fs2, rest) := by
  induction fs2 with
  | nil =>
    intro f fuel rest hfuel
    obtain ⟨k, rfl⟩ : ∃ k, fuel = k + 1 := ⟨fuel - 1, by omega⟩
    have hrow : (csvRenderRow [f]).data ++ rest
        = (csvRenderField f).data ++ ('\r' :: '\n' :: rest) := by
      rw [csvRenderRow_data]
      have hb1 : csvRenderRowBody [f] = csvRenderField f := rfl
      rw [hb1, List.append_assoc]
      rfl
    rw [hrow]
    simp only [parseRecordAux]
    rw [parseField_render f ('\r' :: '\n' :: rest) (Or.inr ⟨'\n' :: rest, Or.inr rfl⟩)]
    have hc1 : (('\r' : Char) == ',') = false := by decide
    have hc2 : (('\r' : Char) == '\r') = true := by decide
    have hc3 : (('\n' : Char) == '\n') = true := by decide
    simp [hc1, hc2, hc3]
  | cons g t ih =>
    intro f fuel rest hfuel
    obtain ⟨k, rfl⟩ : ∃ k, fuel = k + 1 := ⟨fuel - 1, by omega⟩
    have hcomma : (((",") : String)).data = [','] := rfl
    have hrow : (csvRenderRow (f :: g :: t)).data ++ rest
        = (csvRenderField f).data ++ (',' :: ((csvRenderRow (g :: t)).data ++ rest)) := by
      rw [csvRenderRow_data, csvRenderRow_data]
      have hb1 : csvRenderRowBody (f :: g :: t)
          = csvRenderField f ++ (",") ++ csvRenderRowBody (g :: t) := rfl
      rw [hb1]
      simp [String.data_append, List.append_assoc, hcomma]
    rw [hrow]
    simp only [parseRecordAux]
    rw [parseField_render f (',' :: ((csvRenderRow (g :: t)).data ++ rest))
      (Or.inr ⟨(csvRenderRow (g :: t)).data ++ rest, Or.inl rfl⟩)]
    have hc1 : ((',' : Char) == ',') = true := by decide
    simp only [hc1, if_true]
    rw [ih g k rest (by simp at hfuel ⊢; omega)]

theorem csvRenderRowBody_length_ge (fs2 : List String) : ∀ (f : String),
    fs2.length ≤ (csvRenderRowBody (f :: fs2)).data.length := by
  induction fs2 with
  | nil => simp
  | cons g t ih =>
    intro f
    have hb1 : csvRenderRowBody (f :: g :: t)
        = csvRenderField f ++ (",") ++ csvRenderRowBody (g :: t) := rfl
    rw [hb1]
    have := ih g
    simp only [String.data_append, List.length_append, List.length_cons]
    have hcomma : (((",") : String)).data.length = 1 := rfl
    simp at this ⊢
    omega

theorem csvRenderRow_length (fields : List String) :
    (csvRenderRow fields).data.length = (csvRenderRowBody fields).data.length + 2 := by
  rw [csvRenderRow_data]
  simp

theorem parseRecord_render (f : String) (fs2 : List String) (rest : List Char) :
    parseRecord ((csvRenderRow (f :: fs2)).data ++ rest) = (f :: fs2, rest) := by
  unfold parseRecord
  apply parseRecordAux_render
  have h1 := csvRenderRowBody_length_ge fs2 f
  have h2 := csvRenderRow_length (f :: fs2)
  simp only [List.length_append]
  omega

theorem csvRenderRows_length_ge (rows : List (List String)) :
    rows.length ≤ (csvRenderRows rows).data.length := by
  induction rows with
  | nil => simp
  | cons row rest ih =>
    have hr : csvRenderRows (row :: rest) = csvRenderRow row ++ csvRenderRows rest := rfl
    rw [hr]
    have hlen := csvRenderRow_length row
    simp only [String.data_append, List.length_append, List.length_cons]
    omega

theorem parseCsvAux_render (rows : List (List String)) : ∀ (fuel : Nat),
    (∀ row ∈ rows, row ≠ []) → rows.length ≤ fuel →
    parseCsvAux fuel (csvRenderRows rows).data = rows := by
  induction rows with
  | nil =>
    intro fuel hne hfuel
    cases fuel with
    | zero => rfl
    | succ k => simp [parseCsvAux, csvRenderRows]
  | cons row rest ih =>
    intro fuel hne hfuel
    have hfuel2 : rest.length + 1 ≤ fuel := by simpa using hfuel
    obtain ⟨k, rfl⟩ : ∃ k, fuel = k + 1 := ⟨fuel - 1, by omega⟩
    obtain ⟨f, fs2, rfl⟩ : ∃ f fs2, row = f :: fs2 := by
      cases row with
      | nil => exact absurd rfl (hne [] (List.mem_cons_self _ _))
      | cons f fs2 => exact ⟨f, fs2, rfl⟩
    have hdata : (csvRenderRows ((f :: fs2) :: rest)).data
        = (csvRenderRow (f :: fs2)).data ++ (csvRenderRows rest).data := by
      have hr : csvRenderRows ((f :: fs2) :: rest)
          = csvRenderRow (f :: fs2) ++ csvRenderRows rest := rfl
      rw [hr, String.data_append]
    rw [hdata]
    simp only [parseCsvAux]
    have hlen := csvRenderRow_length (f :: fs2)
    have hnonempty : ((csvRenderRow (f :: fs2)).data ++ (csvRenderRows rest).data).isEmpty
        = false := by
      cases hcc : (csvRenderRow (f :: fs2)).data with
      | nil => rw [hcc] at hlen; simp at hlen
      | cons a b => simp [hcc]
    simp only [hnonempty, Bool.false_eq_true, if_false]
    rw [parseRecord_render f fs2 (csvRenderRows rest).data]
    rw [ih k (fun r hr => hne r (List.mem_cons_of_mem _ hr)) (by omega)]

/-- Claim C9: for every non-empty report the CSV writer emits the header and
one row per item in the fixed column order (title, url, duration,
transcript, filename, processed timestamp) with standard CSV quoting, and
parsing the written document back reproduces the header and every item's
fields verbatim. -/
theorem c9_csv_roundtrip (results : List ItemResult) (h : results ≠ []) :
    parseCsvRecords (save_results_csv_content results)
      = csvHeaderFields :: results.map csvRowOf := by
  have hic : results.isEmpty = false := by
    cases results with
    | nil => exact absurd rfl h
    | cons a b => rfl
  have hcontent : save_results_csv_content results
      = csvRenderRows (csvHeaderFields :: results.map csvRowOf) := by
    simp [save_results_csv_content, hic]
  rw [hcontent]
  unfold parseCsvRecords
  apply parseCsvAux_render
  · intro row hrow
    rcases List.mem_cons.mp hrow with hrr | hrr
    · subst hrr
      simp [csvHeaderFields]
    · obtain ⟨r, hmem, rfl⟩ := List.mem_map.mp hrr
      simp [csvRowOf]
  · have hge := csvRenderRows_length_ge (csvHeaderFields :: results.map csvRowOf)
    omega

/-- Claim C9, witness: the round-trip theorem applied at a concrete result
whose fields contain the delimiter, the quote character and an embedded
CRLF. -/
theorem c9_witness :
    parseCsvRecords (save_results_csv_content [rC9])
      = csvHeaderFields :: [rC9].map csvRowOf :=
  c9_csv_roundtrip [rC9] (by simp)

/-- Claim C6: on an empty batch report both writers still succeed: the CSV
writer produces an empty file, which parses as an empty table (zero
records), and the JSON writer produces "[]", which parses as the empty JSON
array; both files are created in the output directory with exactly those
contents. -/
theorem c6_empty_report_writers :
    save_results_csv_content [] = ("")
    ∧ parseCsvRecords (("")) = []
    ∧ fsLookup (save_results_csv cfgDefault [] ("subtitles_results.csv") []).2
        ("downloads/subtitles_results.csv") = some ("")
    ∧ save_results_json_content [] = ("[]")
    ∧ parseJsonValue 2 ((("[]") : String)).data = some (Json.arr [], [])
    ∧ fsLookup (save_results_json cfgDefault [] ("subtitles_results.json") []).2
        ("downloads/subtitles_results.json") = some ("[]") :=
  ⟨rfl, rfl, rfl, rfl, rfl, rfl⟩
